import Mathlib

/-!
Shallow embedding of the pumpkin-test-server deployment monitor
(src/types.rs, src/storage.rs, src/build.rs, src/github.rs, src/main.rs).

Modelling conventions:
* `chrono::DateTime<Utc>` timestamps are `Int` (the Unix epoch is `0`);
  `chrono::Duration` is an `Int` number of seconds; `uuid::Uuid` is a `Nat`.
* File-system persistence is explicit: a `Storage` value carries the content
  of its data file in the `disk` field, and `Storage.save` (which in Rust
  serialises `self.data` to JSON and rewrites the file) sets
  `disk := FileContent.document data`.  Serialisation is modelled as the
  identity on `StorageData`.  `fs::write` failures are not modelled (every
  claim under study is about the value written, not about write failures).
* Effectful operations on child processes are instrumented with event
  lists so that the theorems can talk about which process operations a
  code path performs and in which order.
-/

namespace Pumpkin

/-- types.rs `BuildStatusType`. -/
inductive BuildStatusType where
  | Pending
  | Building
  | Success
  | Failed
  | Stopped
deriving DecidableEq, Repr

/-- types.rs `BuildStatus` (one build record). -/
structure BuildStatus where
  id : Nat
  commit_sha : String
  status : BuildStatusType
  started_at : Int
  finished_at : Option Int
  error_message : Option String
deriving DecidableEq, Repr

/-- types.rs `GitHubCommit`. -/
structure GitHubCommit where
  sha : String
  message : String
  author : String
  date : Int
deriving DecidableEq, Repr

/-- types.rs `SystemStatus`.  The committed types.rs lists the first six
fields; `process_pid` is referenced throughout main.rs and build.rs
(`new_status.process_pid`, `current_status.process_pid`), so the struct is
modelled with it included. -/
structure SystemStatus where
  current_commit : Option String
  build_status : BuildStatusType
  is_running : Bool
  last_check : Int
  uptime : Option Int
  started_at : Option Int
  process_pid : Option Nat
deriving DecidableEq, Repr

/-- storage.rs `StorageData`: the whole persisted document. -/
structure StorageData where
  builds : List BuildStatus
  system_status : SystemStatus
deriving DecidableEq, Repr

/-- storage.rs `impl Default for StorageData` (`now` stands for the
`chrono::Utc::now()` call in the default). -/
def StorageData.default (now : Int) : StorageData :=
  { builds := []
    system_status :=
      { current_commit := none
        build_status := .Pending
        is_running := false
        last_check := now
        uptime := none
        started_at := none
        process_pid := none } }

/-- State of the on-disk data file, as `Storage::new` can observe it. -/
inductive FileContent where
  | missing
  | unreadable (err : String)
  | corrupt (raw : String)
  | document (d : StorageData)
deriving DecidableEq, Repr

/-- storage.rs `Storage`, extended with the modelled file content. -/
structure Storage where
  file_path : String
  data : StorageData
  disk : FileContent
deriving DecidableEq, Repr

/-- storage.rs `Storage::save`: serialise `self.data` and rewrite the file. -/
def Storage.save (s : Storage) : Storage :=
  { s with disk := .document s.data }

/-- storage.rs `Storage::new`: load the file if it exists; on a parse
failure or a missing file fall back to `StorageData::default()`; always
`save` before returning.  `unreadable` models a failing
`fs::read_to_string`, whose error propagates with `?`. -/
def Storage.new (file_path : String) (file : FileContent) (now : Int) :
    Except String Storage :=
  match file with
  | .unreadable e => .error e
  | .document d => .ok (Storage.save { file_path := file_path, data := d, disk := file })
  | .corrupt _ =>
      .ok (Storage.save { file_path := file_path, data := StorageData.default now, disk := file })
  | .missing =>
      .ok (Storage.save { file_path := file_path, data := StorageData.default now, disk := file })

/-- The comparator of storage.rs line 75,
`sort_by(|a, b| b.started_at.cmp(&a.started_at))`: `a` may stay before `b`
exactly when `b.started_at <= a.started_at` (descending order). -/
def buildGe (a b : BuildStatus) : Bool :=
  b.started_at ≤ a.started_at

/-- storage.rs `Storage::save_build_status`: drop any record with the same
id, push the new record, stable-sort descending by `started_at` (Rust's
`sort_by` is stable, modelled by the stable `List.mergeSort`), truncate to
100 records, persist. -/
def Storage.save_build_status (s : Storage) (build : BuildStatus) : Storage :=
  let builds := s.data.builds.filter fun b => b.id ≠ build.id
  let builds := builds ++ [build]
  let builds := builds.mergeSort buildGe
  let builds := if builds.length > 100 then builds.take 100 else builds
  Storage.save { s with data := { s.data with builds := builds } }

/-- storage.rs `Storage::get_latest_builds`. -/
def Storage.get_latest_builds (s : Storage) (limit : Nat) : List BuildStatus :=
  s.data.builds.take limit

/-- storage.rs `Storage::update_system_status`. -/
def Storage.update_system_status (s : Storage) (status : SystemStatus) : Storage :=
  Storage.save { s with data := { s.data with system_status := status } }

/-- storage.rs `Storage::get_system_status`. -/
def Storage.get_system_status (s : Storage) : SystemStatus :=
  s.data.system_status

/-- storage.rs `Storage::set_service_started` (`now` stands for its
`chrono::Utc::now()` call). -/
def Storage.set_service_started (s : Storage) (now : Int) : Storage :=
  Storage.save
    { s with data :=
      { s.data with system_status :=
        { s.data.system_status with is_running := true, started_at := some now } } }

/-- storage.rs `Storage::set_service_stopped`. -/
def Storage.set_service_stopped (s : Storage) : Storage :=
  Storage.save
    { s with data :=
      { s.data with system_status :=
        { s.data.system_status with is_running := false } } }

/-- The build-history invariant the code actually maintains: at most 100
records, non-increasing `started_at`, pairwise distinct ids. -/
def historyInv (l : List BuildStatus) : Prop :=
  l.length ≤ 100 ∧
  l.Pairwise (fun a b => b.started_at ≤ a.started_at) ∧
  l.Pairwise (fun a b => a.id ≠ b.id)

/-- The invariant as the claim words it: *strictly* descending start times. -/
def strictHistoryInv (l : List BuildStatus) : Prop :=
  l.length ≤ 100 ∧
  l.Pairwise (fun a b => b.started_at < a.started_at) ∧
  l.Pairwise (fun a b => a.id ≠ b.id)

theorem buildGe_trans (a b c : BuildStatus) :
    buildGe a b → buildGe b c → buildGe a c := by
  simp only [buildGe, decide_eq_true_eq]
  exact fun h1 h2 => le_trans h2 h1

theorem buildGe_total (a b : BuildStatus) : buildGe a b || buildGe b a := by
  simp only [buildGe, Bool.or_eq_true, decide_eq_true_eq]
  exact Int.le_total _ _

theorem save_build_status_builds (s : Storage) (b : BuildStatus) :
    (s.save_build_status b).data.builds =
      (if (((s.data.builds.filter fun x => x.id ≠ b.id) ++ [b]).mergeSort buildGe).length > 100
       then (((s.data.builds.filter fun x => x.id ≠ b.id) ++ [b]).mergeSort buildGe).take 100
       else ((s.data.builds.filter fun x => x.id ≠ b.id) ++ [b]).mergeSort buildGe) := rfl

theorem historyInv_save_build_status (s : Storage) (b : BuildStatus)
    (h : historyInv s.data.builds) :
    historyInv ((s.save_build_status b).data.builds) := by
  obtain ⟨-, -, hids⟩ := h
  have hl0 :
      ((s.data.builds.filter fun x => x.id ≠ b.id) ++ [b]).Pairwise
        (fun a b => a.id ≠ b.id) := by
    rw [List.pairwise_append]
    refine ⟨hids.filter _, List.pairwise_singleton _ _, ?_⟩
    intro x hx y hy
    rw [List.mem_singleton] at hy
    subst hy
    exact of_decide_eq_true ((List.mem_filter.mp hx).2)
  have hperm :=
    List.mergeSort_perm ((s.data.builds.filter fun x => x.id ≠ b.id) ++ [b]) buildGe
  have hidsorted :
      (((s.data.builds.filter fun x => x.id ≠ b.id) ++ [b]).mergeSort buildGe).Pairwise
        (fun a b => a.id ≠ b.id) :=
    (hperm.pairwise_iff fun h => h.symm).mpr hl0
  have hsorted :
      (((s.data.builds.filter fun x => x.id ≠ b.id) ++ [b]).mergeSort buildGe).Pairwise
        (fun a b => b.started_at ≤ a.started_at) := by
    have := List.sorted_mergeSort buildGe_trans buildGe_total
      ((s.data.builds.filter fun x => x.id ≠ b.id) ++ [b])
    exact this.imp fun h => by simpa [buildGe] using h
  rw [save_build_status_builds]
  unfold historyInv
  split
  · exact ⟨by rw [List.length_take]; omega, hsorted.sublist (List.take_sublist _ _),
      hidsorted.sublist (List.take_sublist _ _)⟩
  · next hlen => exact ⟨by omega, hsorted, hidsorted⟩

/-- Claim C1 (amended): starting from any store whose history has length at
most 100, is sorted in non-increasing order of `started_at` and has pairwise
distinct ids, any sequence of `save_build_status` calls preserves exactly
these three properties.  (The claim's *strict* descending order is refuted
by `C1_counterexample`: two records may share a `started_at`.) -/
theorem C1_history_invariant (s : Storage) (bs : List BuildStatus)
    (h : historyInv s.data.builds) :
    historyInv ((bs.foldl Storage.save_build_status s).data.builds) := by
  induction bs generalizing s with
  | nil => exact h
  | cons b t ih => exact ih _ (historyInv_save_build_status s b h)

def c1_store : Storage :=
  { file_path := "data.json"
    data := StorageData.default 0
    disk := .document (StorageData.default 0) }

def c1_b1 : BuildStatus :=
  { id := 1, commit_sha := "aaaa", status := .Success, started_at := 5,
    finished_at := some 6, error_message := none }

def c1_b2 : BuildStatus :=
  { id := 2, commit_sha := "bbbb", status := .Failed, started_at := 5,
    finished_at := some 7, error_message := some "boom" }

theorem c1_builds_after :
    ((c1_store.save_build_status c1_b1).save_build_status c1_b2).data.builds
      = [c1_b1, c1_b2] := by
  have h1 : (c1_store.save_build_status c1_b1).data.builds = [c1_b1] := by
    rw [save_build_status_builds]
    simp [c1_store, StorageData.default]
  rw [save_build_status_builds, h1]
  have hfilter : ([c1_b1].filter fun x => x.id ≠ c1_b2.id) = [c1_b1] := by
    simp [c1_b1, c1_b2]
  have hsorted : ([c1_b1, c1_b2]).Pairwise fun a b => buildGe a b := by
    simp [List.pairwise_cons, buildGe, c1_b1, c1_b2]
  rw [hfilter]
  rw [show ([c1_b1] ++ [c1_b2] : List BuildStatus) = [c1_b1, c1_b2] from rfl]
  rw [List.mergeSort_of_sorted hsorted]
  simp

/-- Claim C1 counterexample: from the default (empty-history) store, which
satisfies even the strict invariant, inserting two records with distinct
ids but equal `started_at` yields a history that is *not* strictly sorted
in descending order of `started_at`. -/
theorem C1_counterexample :
    strictHistoryInv c1_store.data.builds ∧
    ¬ strictHistoryInv
        (((c1_store.save_build_status c1_b1).save_build_status c1_b2).data.builds) := by
  constructor
  · refine ⟨?_, ?_, ?_⟩ <;> simp [c1_store, StorageData.default]
  · rw [c1_builds_after]
    rintro ⟨-, hs, -⟩
    rw [List.pairwise_cons] at hs
    have := hs.1 c1_b2 (List.mem_singleton.mpr rfl)
    simp [c1_b1, c1_b2] at this

/-- Claim C1 witness: the preservation theorem applied to the concrete
empty store and a two-insertion sequence. -/
theorem C1_history_invariant_witness :
    historyInv c1_store.data.builds ∧
    historyInv (([c1_b1, c1_b2].foldl Storage.save_build_status c1_store).data.builds) := by
  have h0 : historyInv c1_store.data.builds := by
    refine ⟨?_, ?_, ?_⟩ <;> simp [c1_store, StorageData.default]
  exact ⟨h0, C1_history_invariant c1_store [c1_b1, c1_b2] h0⟩

/-!
Model of build.rs.  The effectful functions are instrumented: each one
returns, besides its Rust return value, the ordered list of mutations and
child-process operations it performed.
-/

/-- Observable steps of build.rs code paths, in source order: a field
mutation of the local `build_status` record, or a child-process operation. -/
inductive BuildEvent where
  | spawnCompile
  | killChild
  | waitChild
  | stopProcess
  | assignStatus (s : BuildStatusType)
  | assignErrorMessage (m : Option String)
  | assignFinishedAt (t : Int)
deriving DecidableEq, Repr

/-- Outcome of the raced drain-and-wait in `build_project` (build.rs lines
225 to 256): either the `timeout(...)` future completed with the child's
wait result, or the deadline fired first.  `stderrBuf` is the accumulated
`error_output` buffer at that moment. -/
inductive CompileOutcome where
  | exited (code : Int) (stderrBuf : String)
  | waitFailed (err : String) (stderrBuf : String)
  | timedOut (stderrBuf : String)
deriving DecidableEq, Repr

/-- Environment of one `build_project` run: the fresh uuid, the two
`chrono::Utc::now()` readings, the result of spawning `cargo build`
(whose error propagates with `?`), and the drain-and-wait outcome. -/
structure BuildEnv where
  newId : Nat
  startTime : Int
  finishTime : Int
  spawnResult : Except String Unit
  outcome : CompileOutcome
deriving Repr

/-- build.rs `BuildManager::build_project` (lines 154 to 260). -/
def build_project (env : BuildEnv) (commit : GitHubCommit) :
    Except String (BuildStatus × List BuildEvent) :=
  let b0 : BuildStatus :=
    { id := env.newId, commit_sha := commit.sha, status := .Building,
      started_at := env.startTime, finished_at := none, error_message := none }
  match env.spawnResult with
  | .error e => .error e
  | .ok _ =>
    let step :=
      match env.outcome with
      | .exited code buf =>
        if code = 0 then
          ({ b0 with status := .Success },
           [BuildEvent.spawnCompile, .assignStatus .Success])
        else
          ({ b0 with status := .Failed, error_message := some buf },
           [BuildEvent.spawnCompile, .assignStatus .Failed, .assignErrorMessage (some buf)])
      | .waitFailed e _ =>
          ({ b0 with status := .Failed, error_message := some e },
           [BuildEvent.spawnCompile, .assignStatus .Failed, .assignErrorMessage (some e)])
      | .timedOut _ =>
          ({ b0 with status := .Failed, error_message := some "Build timeout" },
           [BuildEvent.spawnCompile, .assignStatus .Failed,
            .assignErrorMessage (some "Build timeout"), .killChild])
    .ok ({ step.1 with finished_at := some env.finishTime },
         step.2 ++ [.assignFinishedAt env.finishTime])

/-- Number of assignments to `finished_at` in an event trace. -/
def finishAssignCount (evs : List BuildEvent) : Nat :=
  evs.countP fun e =>
    match e with
    | .assignFinishedAt _ => true
    | _ => false

/-- Environment of one `restart_service` run (build.rs lines 346 to 398):
its own fresh uuid and start time, the repository-update result, the
nested `build_project` environment, the `start_new_process` result, and
the `chrono::Utc::now()` readings of the late assignments (line 366 and
lines 385/392).  `prepare_workspace_config` failures are only logged and
have no observable effect on the record, so they are not modelled. -/
structure RestartEnv where
  newId : Nat
  startTime : Int
  repoUpdate : Except String Unit
  repoFailTime : Int
  build : BuildEnv
  startResult : Except String Nat
  startDoneTime : Int
deriving Repr

/-- build.rs `BuildManager::restart_service`.  Returns the final
`(BuildStatus, Option<pid>)` pair plus the event trace; the trace starts
with the `stop_current_process` call of line 357. -/
def restart_service (env : RestartEnv) (commit : GitHubCommit) :
    Except String ((BuildStatus × Option Nat) × List BuildEvent) :=
  let b0 : BuildStatus :=
    { id := env.newId, commit_sha := commit.sha, status := .Building,
      started_at := env.startTime, finished_at := none, error_message := none }
  let evs0 : List BuildEvent := [.stopProcess]
  match env.repoUpdate with
  | .error e =>
      let msg := "Failed to update repository: " ++ e
      let b1 := { b0 with status := BuildStatusType.Failed, error_message := some msg, finished_at := some env.repoFailTime }
      .ok ((b1, none),
           evs0 ++ [.assignStatus .Failed, .assignErrorMessage (some msg), .assignFinishedAt env.repoFailTime])
  | .ok _ =>
    match build_project env.build commit with
    | .error e => .error e
    | .ok (b1, bevs) =>
      if b1.status ≠ .Success then
        .ok ((b1, none), evs0 ++ bevs)
      else
        match env.startResult with
        | .ok pid =>
            let b2 := { b1 with finished_at := some env.startDoneTime }
            .ok ((b2, some pid), evs0 ++ bevs ++ [.assignFinishedAt env.startDoneTime])
        | .error e =>
            let msg := "Failed to start new process: " ++ e
            let b2 := { b1 with status := BuildStatusType.Failed, error_message := some msg, finished_at := some env.startDoneTime }
            .ok ((b2, none),
                 evs0 ++ bevs ++ [.assignStatus .Failed, .assignErrorMessage (some msg), .assignFinishedAt env.startDoneTime])

/-- build.rs `BuildManager`: the supervisor state is the tracked child
handle, modelled by that child's pid. -/
structure BuildManager where
  current_process : Option Nat
deriving DecidableEq, Repr

/-- Child-process operations performed by the supervisor. -/
inductive ProcEvent where
  | spawn (pid : Nat)
  | kill (pid : Nat)
  | wait (pid : Nat)
deriving DecidableEq, Repr

/-- build.rs `BuildManager::start_new_process` (lines 278 to 307): fail if
the binary is absent; otherwise attempt `Command::spawn()` — whose error
propagates with `?` at line 299, leaving `self.current_process` untouched —
and on a successful spawn overwrite `current_process` with the new child's
handle.  (The Rust error message also carries the binary path; the path is
not modelled.)  Note the source performs no operation on a previously
tracked child on any path. -/
def start_new_process (m : BuildManager) (binaryExists : Bool)
    (spawnResult : Except String Nat) :
    Except String (BuildManager × Nat × List ProcEvent) :=
  if binaryExists = false then
    .error "Binary not found"
  else
    match spawnResult with
    | .error e => .error e
    | .ok newPid => .ok ({ current_process := some newPid }, newPid, [.spawn newPid])

/-- build.rs `BuildManager::stop_current_process` (lines 262 to 276):
`take()` the handle; if a child was tracked, kill it and, when the kill
succeeded, wait for it; a failed kill is only logged. -/
def stop_current_process (m : BuildManager) (killOk : Bool) :
    BuildManager × List ProcEvent :=
  match m.current_process with
  | none => (m, [])
  | some pid =>
      if killOk then ({ current_process := none }, [.kill pid, .wait pid])
      else ({ current_process := none }, [.kill pid])

def c2_result : Except String (BuildManager × Nat × List ProcEvent) :=
  start_new_process { current_process := some 1 } true (.ok 2)

def c2_events : List ProcEvent :=
  match c2_result with
  | .ok (_, _, evs) => evs
  | .error _ => []

def c2_tracked : Option Nat :=
  match c2_result with
  | .ok (m, _, _) => m.current_process
  | .error _ => none

/-- Claim C2 counterexample: with a child (pid 1) already tracked, the
binary present and the spawn succeeding, `start_new_process` neither fails
nor stops the previous child: it succeeds, replaces the tracked handle
with the new child (pid 2), and performs no kill and no wait on pid 1 —
the previous child is silently dropped, not stopped and reaped. -/
theorem C2_counterexample :
    c2_result.isOk = true ∧
    c2_tracked = some 2 ∧
    c2_events.contains (.kill 1) = false ∧
    c2_events.contains (.wait 1) = false := by
  decide

/-- Claim C2 (amended): `start_new_process` never stops or reaps a
previously tracked child.  On its failure paths — binary missing, or the
spawn itself failing — it returns the error and leaves the tracked handle
in place; on success it overwrites the tracked handle with the new child,
emitting no kill and no wait for any process.  Avoiding a double-spawn is
the callers' duty: `stop_current_process` (which restart_service calls
first) is the operation that kills the tracked child and, on a successful
kill, reaps it, clearing the handle either way. -/
theorem C2_start_new_process_no_stop (m : BuildManager)
    (sr : Except String Nat) (newPid p : Nat) (e : String) :
    start_new_process m false sr = .error "Binary not found" ∧
    start_new_process m true (.error e) = .error e ∧
    start_new_process m true (.ok newPid)
      = .ok ({ current_process := some newPid }, newPid, [.spawn newPid]) ∧
    ProcEvent.kill p ∉ [ProcEvent.spawn newPid] ∧
    ProcEvent.wait p ∉ [ProcEvent.spawn newPid] ∧
    (∀ pid killOk, stop_current_process { current_process := some pid } killOk
        = ({ current_process := none },
           if killOk then [ProcEvent.kill pid, ProcEvent.wait pid]
           else [ProcEvent.kill pid])) := by
  refine ⟨rfl, rfl, rfl, by simp, by simp, fun pid killOk => by cases killOk <;> rfl⟩

theorem build_project_finish_once (env : BuildEnv) (commit : GitHubCommit)
    (b : BuildStatus) (evs : List BuildEvent)
    (h : build_project env commit = .ok (b, evs)) :
    finishAssignCount evs = 1 ∧ b.finished_at = some env.finishTime := by
  obtain ⟨nid, t0, t1, sp, oc⟩ := env
  cases sp with
  | error e => simp [build_project] at h
  | ok u =>
    cases oc with
    | exited code buf =>
      by_cases hc : code = 0
      · simp [build_project, hc] at h
        rcases h with ⟨rfl, rfl⟩
        exact ⟨by simp [finishAssignCount], rfl⟩
      · simp [build_project, hc] at h
        rcases h with ⟨rfl, rfl⟩
        exact ⟨by simp [finishAssignCount], rfl⟩
    | waitFailed e buf =>
      simp [build_project] at h
      rcases h with ⟨rfl, rfl⟩
      exact ⟨by simp [finishAssignCount], rfl⟩
    | timedOut buf =>
      simp [build_project] at h
      rcases h with ⟨rfl, rfl⟩
      exact ⟨by simp [finishAssignCount], rfl⟩

/-- Claim C3 (amended): `build_project` assigns `finished_at` exactly once,
at its single terminal transition.  `restart_service`, however, assigns
`finished_at` of the record it returns a *second* time after the
process-start step whenever the nested build succeeded (overwriting the
first value; on a start failure it also re-assigns the status from
Success to Failed); only the repo-update-failure and failed-build paths
assign it exactly once. -/
theorem C3_finished_at_assignments :
    (∀ env commit b evs, build_project env commit = .ok (b, evs) →
        finishAssignCount evs = 1 ∧ b.finished_at = some env.finishTime) ∧
    (∀ env commit r evs, restart_service env commit = .ok (r, evs) →
        (finishAssignCount evs = 1 ∨ finishAssignCount evs = 2) ∧
        (finishAssignCount evs = 2 ↔
          env.repoUpdate.isOk = true ∧
          ∃ b bevs, build_project env.build commit = .ok (b, bevs) ∧
            b.status = BuildStatusType.Success)) := by
  refine ⟨fun env commit b evs h => build_project_finish_once env commit b evs h, ?_⟩
  intro env commit r evs h
  obtain ⟨nid, t0, ru, rft, benv, sres, sdt⟩ := env
  cases ru with
  | error e =>
    simp only [restart_service] at h
    rcases h with ⟨rfl, rfl⟩
    refine ⟨Or.inl (by simp [finishAssignCount]), ?_, ?_⟩
    · intro hc
      simp [finishAssignCount] at hc
    · rintro ⟨hok, -⟩
      simp [Except.isOk, Except.toBool] at hok
  | ok u =>
    cases hbp : build_project benv commit with
    | error e => simp [restart_service, hbp] at h
    | ok pr =>
      obtain ⟨b1, bevs⟩ := pr
      have hcount := (build_project_finish_once benv commit b1 bevs hbp).1
      simp only [restart_service, hbp] at h
      split at h
      · next hss =>
        rcases h with ⟨rfl, rfl⟩
        refine ⟨Or.inl ?_, ?_, ?_⟩
        · simp [finishAssignCount, List.countP_append] at hcount ⊢
          exact hcount
        · intro hc
          simp [finishAssignCount, List.countP_append] at hc hcount
          omega
        · rintro ⟨-, b, bevs2, hb, hsucc⟩
          simp only [Except.ok.injEq, Prod.mk.injEq] at hb
          obtain ⟨rfl, rfl⟩ := hb
          exact absurd hsucc hss
      · next hss =>
        have hsucc : b1.status = BuildStatusType.Success := by
          by_contra hne
          exact hss hne
        cases sres with
        | ok pid =>
          rcases h with ⟨rfl, rfl⟩
          refine ⟨Or.inr ?_, ?_, ?_⟩
          · simp [finishAssignCount, List.countP_append] at hcount ⊢
            omega
          · intro _
            exact ⟨rfl, b1, bevs, rfl, hsucc⟩
          · intro _
            simp [finishAssignCount, List.countP_append] at hcount ⊢
            omega
        | error e =>
          rcases h with ⟨rfl, rfl⟩
          refine ⟨Or.inr ?_, ?_, ?_⟩
          · simp [finishAssignCount, List.countP_append] at hcount ⊢
            omega
          · intro _
            exact ⟨rfl, b1, bevs, rfl, hsucc⟩
          · intro _
            simp [finishAssignCount, List.countP_append] at hcount ⊢
            omega

def c3_commit : GitHubCommit :=
  { sha := "abc", message := "m", author := "a", date := 0 }

def c3_env : RestartEnv :=
  { newId := 10, startTime := 100, repoUpdate := .ok (), repoFailTime := 0,
    build := { newId := 11, startTime := 102, finishTime := 103,
               spawnResult := .ok (), outcome := .exited 0 "" },
    startResult := .ok 7, startDoneTime := 104 }

def c3_run : (BuildStatus × Option Nat) × List BuildEvent :=
  match restart_service c3_env c3_commit with
  | .ok res => res
  | .error _ => ((⟨0, "", .Pending, 0, none, none⟩, none), [])

/-- Claim C3 counterexample: a fully successful deploy through
`restart_service` assigns `finished_at` twice — once at `build_project`'s
terminal transition (time 103) and again after process start (time 104),
the second assignment overwriting the first. -/
theorem C3_counterexample :
    finishAssignCount c3_run.2 = 2 ∧
    c3_run.1.1.finished_at = some 104 ∧
    BuildEvent.assignFinishedAt 103 ∈ c3_run.2 ∧
    BuildEvent.assignFinishedAt 104 ∈ c3_run.2 := by
  decide

def c3w_env : RestartEnv :=
  { newId := 20, startTime := 200, repoUpdate := .error "nope", repoFailTime := 201,
    build := { newId := 21, startTime := 0, finishTime := 0,
               spawnResult := .ok (), outcome := .exited 1 "err" },
    startResult := .error "none", startDoneTime := 0 }

def c3w_record : BuildStatus :=
  { id := 20, commit_sha := "abc", status := .Failed, started_at := 200,
    finished_at := some 201,
    error_message := some "Failed to update repository: nope" }

def c3w_evs : List BuildEvent :=
  [.stopProcess, .assignStatus .Failed,
   .assignErrorMessage (some "Failed to update repository: nope"),
   .assignFinishedAt 201]

def c3w_brec : BuildStatus :=
  { id := 11, commit_sha := "abc", status := .Success, started_at := 102,
    finished_at := some 103, error_message := none }

def c3w_bevs : List BuildEvent :=
  [.spawnCompile, .assignStatus .Success, .assignFinishedAt 103]

/-- Claim C3 witness: both halves of the theorem applied at concrete
inputs — a build that finishes once, and a repo-update failure whose
record also gets exactly one `finished_at` assignment. -/
theorem C3_finished_at_assignments_witness :
    (build_project c3_env.build c3_commit = .ok (c3w_brec, c3w_bevs) ∧
      finishAssignCount c3w_bevs = 1 ∧ c3w_brec.finished_at = some c3_env.build.finishTime) ∧
    (restart_service c3w_env c3_commit = .ok ((c3w_record, none), c3w_evs) ∧
      (finishAssignCount c3w_evs = 1 ∨ finishAssignCount c3w_evs = 2)) :=
  ⟨⟨rfl, C3_finished_at_assignments.1 c3_env.build c3_commit c3w_brec c3w_bevs rfl⟩,
   ⟨rfl, (C3_finished_at_assignments.2 c3w_env c3_commit (c3w_record, none) c3w_evs rfl).1⟩⟩

/-- Claim C4: when the compile times out, `build_project` marks the record
Failed, replaces whatever stderr had accumulated (`buf`, universally
quantified here) by the synthetic message "Build timeout", kills the
child, sets `finished_at`, and performs no further wait on the killed
child. -/
theorem C4_timeout_kills_and_discards (commit : GitHubCommit) (nid : Nat)
    (t0 t1 : Int) (buf : String) :
    build_project
        { newId := nid, startTime := t0, finishTime := t1,
          spawnResult := .ok (), outcome := .timedOut buf } commit
      = .ok ({ id := nid, commit_sha := commit.sha, status := .Failed,
               started_at := t0, finished_at := some t1,
               error_message := some "Build timeout" },
             [.spawnCompile, .assignStatus .Failed,
              .assignErrorMessage (some "Build timeout"), .killChild,
              .assignFinishedAt t1]) ∧
    BuildEvent.waitChild ∉
      [BuildEvent.spawnCompile, .assignStatus .Failed,
       .assignErrorMessage (some "Build timeout"), .killChild,
       .assignFinishedAt t1] := by
  exact ⟨rfl, by simp⟩

/-!
Model of the health loop, main.rs `status_monitor_iteration`
(lines 250 to 326).
-/

/-- The external components a loop iteration can invoke. -/
inductive LoopCall where
  | buildExecutor
  | repoSynchronizer
  | supervisorStart
deriving DecidableEq, Repr

/-- Environment of one health tick: the liveness probe's answer
(`is_process_running`), the two filesystem probes, the result of
`start_new_process` if it gets called, and the tick's wall clock. -/
structure HealthEnv where
  is_running : Bool
  repo_cloned : Bool
  binary_built : Bool
  startResult : Except String Nat
  now : Int
deriving Repr

/-- main.rs `status_monitor_iteration`: persist a liveness transition if
one happened, then — if not running and no build is in flight and both the
repository and the binary exist — invoke the supervisor's start operation
and persist the restart; otherwise only log.  Returns the updated store
and the list of component invocations. -/
def status_monitor_iteration (env : HealthEnv) (s : Storage) :
    Storage × List LoopCall :=
  let is_running := env.is_running
  let current_status := s.get_system_status
  let s1 :=
    if current_status.is_running ≠ is_running then
      let ns0 := { current_status with is_running := is_running, last_check := env.now }
      let new_status :=
        if is_running then { ns0 with build_status := BuildStatusType.Success } else ns0
      let sA := s.update_system_status new_status
      if is_running = false then
        let sB := sA.set_service_stopped
        sB.update_system_status { new_status with process_pid := none }
      else
        sA.set_service_started env.now
    else s
  if is_running = false ∧ current_status.build_status ≠ BuildStatusType.Building then
    if env.repo_cloned && env.binary_built then
      match env.startResult with
      | .ok pid =>
          let new_status :=
            { current_status with process_pid := some pid, is_running := true }
          (((s1.update_system_status new_status).set_service_started env.now),
           [.supervisorStart])
      | .error _ => (s1, [.supervisorStart])
    else (s1, [])
  else (s1, [])

/-- Claim C6: a health tick never invokes the build executor or the
repository synchronizer, and it invokes the supervisor's start operation
exactly when the process is observed not running, the stored build status
is not Building, and both the repository clone and the built binary
exist. -/
theorem status_monitor_calls (env : HealthEnv) (s : Storage) :
    (status_monitor_iteration env s).2 =
      if env.is_running = false ∧
          s.get_system_status.build_status ≠ BuildStatusType.Building then
        (if env.repo_cloned && env.binary_built then [LoopCall.supervisorStart] else [])
      else [] := by
  simp only [status_monitor_iteration]
  cases hsr : env.startResult with
  | ok pid =>
    by_cases h1 : env.is_running = false ∧
        s.get_system_status.build_status ≠ BuildStatusType.Building
    · by_cases h2 : (env.repo_cloned && env.binary_built) = true
      · simp [h1, h2]
      · simp [h1, h2]
    · simp [h1]
  | error e =>
    by_cases h1 : env.is_running = false ∧
        s.get_system_status.build_status ≠ BuildStatusType.Building
    · by_cases h2 : (env.repo_cloned && env.binary_built) = true
      · simp [h1, h2]
      · simp [h1, h2]
    · simp [h1]

/-- Claim C6: a health tick never invokes the build executor or the
repository synchronizer, and it invokes the supervisor's start operation
exactly when the process is observed not running, the stored build status
is not Building, and both the repository clone and the built binary
exist. -/
theorem C6_health_tick_calls (env : HealthEnv) (s : Storage) :
    LoopCall.buildExecutor ∉ (status_monitor_iteration env s).2 ∧
    LoopCall.repoSynchronizer ∉ (status_monitor_iteration env s).2 ∧
    (LoopCall.supervisorStart ∈ (status_monitor_iteration env s).2 ↔
      env.is_running = false ∧
      s.get_system_status.build_status ≠ BuildStatusType.Building ∧
      env.repo_cloned = true ∧ env.binary_built = true) := by
  refine ⟨?_, ?_, ?_⟩
  · rw [status_monitor_calls]
    split
    · split <;> simp
    · simp
  · rw [status_monitor_calls]
    split
    · split <;> simp
    · simp
  · rw [status_monitor_calls]
    split
    · next h1 =>
      split
      · next h2 =>
        rw [Bool.and_eq_true] at h2
        simp only [List.mem_singleton]
        exact ⟨fun _ => ⟨h1.1, h1.2, h2.1, h2.2⟩, fun _ => trivial⟩
      · next h2 =>
        simp only [List.not_mem_nil, false_iff]
        rintro ⟨-, -, ha, hb⟩
        exact h2 (by rw [Bool.and_eq_true]; exact ⟨ha, hb⟩)
    · next h1 =>
      simp only [List.not_mem_nil, false_iff]
      rintro ⟨ha, hb, -, -⟩
      exact h1 ⟨ha, hb⟩

/-!
Claims about the state store itself (C7, C8, C9).
-/

def c7_status : SystemStatus :=
  { current_commit := none, build_status := .Pending, is_running := false,
    last_check := 0, uptime := some 3600, started_at := none, process_pid := none }

def c7_store : Storage :=
  { file_path := "data.json"
    data := StorageData.default 0
    disk := .document (StorageData.default 0) }

/-- Claim C7 counterexample: the system-state document has an `uptime`
member, and the store's `update_system_status` operation persists whatever
uptime value its caller supplies — here one hour — as part of the
document.  Nothing in the file-backed store derives uptime from the start
timestamp. -/
theorem C7_counterexample :
    (c7_store.update_system_status c7_status).disk
      = .document { builds := [], system_status := c7_status } ∧
    c7_status.uptime = some 3600 ∧
    (c7_store.update_system_status c7_status).get_system_status.uptime = some 3600 := by
  exact ⟨rfl, rfl, rfl⟩

/-- Claim C7 (amended): the persisted system-state document *includes* an
uptime field; `update_system_status` persists the caller-supplied uptime
verbatim, the default state carries uptime None, `set_service_started` and
`set_service_stopped` leave the stored uptime unchanged, and the store's
accessor returns the stored value as is — the store never derives uptime
from `now` minus the start timestamp (only the unused database backend
does). -/
theorem C7_uptime_is_stored_verbatim (s : Storage) (st : SystemStatus) (now : Int) :
    (s.update_system_status st).data.system_status.uptime = st.uptime ∧
    (s.update_system_status st).disk
      = .document { builds := s.data.builds, system_status := st } ∧
    (s.set_service_started now).data.system_status.uptime = s.data.system_status.uptime ∧
    s.set_service_stopped.data.system_status.uptime = s.data.system_status.uptime ∧
    (StorageData.default now).system_status.uptime = none ∧
    s.get_system_status = s.data.system_status := by
  exact ⟨rfl, rfl, rfl, rfl, rfl, rfl⟩

/-- Claim C8: when the persisted file exists but does not parse, and
likewise when it is absent, `Storage::new` resets to the documented
default — empty history, no commit, build status Pending, not running, no
start timestamp — and immediately persists that default, overwriting the
previous file content, before returning. -/
theorem C8_corrupt_resets_to_default (path raw : String) (now : Int) :
    Storage.new path (.corrupt raw) now
      = .ok { file_path := path, data := StorageData.default now,
              disk := .document (StorageData.default now) } ∧
    Storage.new path .missing now
      = .ok { file_path := path, data := StorageData.default now,
              disk := .document (StorageData.default now) } ∧
    (StorageData.default now).builds = [] ∧
    (StorageData.default now).system_status.current_commit = none ∧
    (StorageData.default now).system_status.build_status = .Pending ∧
    (StorageData.default now).system_status.is_running = false ∧
    (StorageData.default now).system_status.started_at = none := by
  exact ⟨rfl, rfl, rfl, rfl, rfl, rfl, rfl⟩

/-- Claim C9: `set_service_stopped` flips only `is_running` to false; every
other field of the singleton system state — in particular `started_at`,
`current_commit`, `build_status`, `last_check` (and `uptime`,
`process_pid`, and the build history) — is left unchanged, whereas
`set_service_started` does overwrite `started_at`. -/
theorem C9_stop_frame (s : Storage) (now : Int) :
    s.set_service_stopped.data.system_status.is_running = false ∧
    s.set_service_stopped.data.system_status.started_at
      = s.data.system_status.started_at ∧
    s.set_service_stopped.data.system_status.current_commit
      = s.data.system_status.current_commit ∧
    s.set_service_stopped.data.system_status.build_status
      = s.data.system_status.build_status ∧
    s.set_service_stopped.data.system_status.last_check
      = s.data.system_status.last_check ∧
    s.set_service_stopped.data.system_status.uptime
      = s.data.system_status.uptime ∧
    s.set_service_stopped.data.system_status.process_pid
      = s.data.system_status.process_pid ∧
    s.set_service_stopped.data.builds = s.data.builds ∧
    s.set_service_stopped.file_path = s.file_path ∧
    (s.set_service_started now).data.system_status.started_at = some now ∧
    (s.set_service_started now).data.system_status.is_running = true := by
  exact ⟨rfl, rfl, rfl, rfl, rfl, rfl, rfl, rfl, rfl, rfl, rfl⟩

/-!
Model of github.rs (C5, C10).
-/

/-- A JSON value, after `serde_json` parsing. -/
inductive Json where
  | null
  | bool (b : Bool)
  | num (n : Int)
  | str (s : String)
  | arr (elems : List Json)
  | obj (fields : List (String × Json))
deriving Repr

/-- serde_json `Value` indexing `value[key]`: field lookup on objects,
`Null` for a missing key or a non-object. -/
def Json.index (j : Json) (k : String) : Json :=
  match j with
  | .obj fields =>
    match fields.find? (fun f => f.1 = k) with
    | some f => f.2
    | none => .null
  | _ => .null

/-- serde_json `Value::as_str`. -/
def Json.asStr : Json → Option String
  | .str s => some s
  | _ => none

/-- The upstream HTTP exchange as the poller observes it: a network-level
failure (propagates with `?`), a non-success HTTP status, a success whose
body fails to parse as JSON (`.json()` error, propagates with `?`), or a
success with a parsed JSON body. -/
inductive ApiResponse where
  | netErr (e : String)
  | httpFail (code : Nat)
  | badBody (e : String)
  | body (j : Json)
deriving Repr

/-- github.rs `GitHubMonitor`: the process-lifetime memory of the poller
(the config and HTTP client carry no state the claims touch). -/
structure GitHubMonitor where
  last_commit_sha : Option String
deriving DecidableEq, Repr

/-- The commit extraction of github.rs lines 58 to 75, identical to lines
111 to 128: missing or non-string fields default to "No message",
"Unknown" and the epoch.  `parse` models `chrono`'s `parse_from_rfc3339`
returning a timestamp; a parse failure falls back to the epoch (`0` in
this model), mirroring `.unwrap_or_else` re-parsing the epoch string. -/
def extractCommit (parse : String → Option Int) (j : Json) (sha : String) :
    GitHubCommit :=
  { sha := sha
    message := ((j.index "commit").index "message").asStr.getD "No message"
    author := (((j.index "commit").index "author").index "name").asStr.getD "Unknown"
    date :=
      (parse ((((j.index "commit").index "author").index "date").asStr.getD
        "1970-01-01T00:00:00Z")).getD 0 }

/-- github.rs `GitHubMonitor::check_for_updates` (lines 23 to 81). -/
def check_for_updates (parse : String → Option Int) (m : GitHubMonitor)
    (resp : ApiResponse) :
    Except String (GitHubMonitor × Option GitHubCommit) :=
  match resp with
  | .netErr e => .error e
  | .httpFail _ => .ok (m, none)
  | .badBody e => .error e
  | .body j =>
    match (j.index "sha").asStr with
    | none => .error "Missing commit SHA"
    | some sha =>
      if m.last_commit_sha = some sha then .ok (m, none)
      else .ok ({ last_commit_sha := some sha }, some (extractCommit parse j sha))

/-- github.rs `GitHubMonitor::get_latest_commit` (lines 83 to 131): the
same fetch and extraction, never touching the remembered identifier. -/
def get_latest_commit (parse : String → Option Int) (m : GitHubMonitor)
    (resp : ApiResponse) : Except String (Option GitHubCommit) :=
  match resp with
  | .netErr e => .error e
  | .httpFail _ => .ok none
  | .badBody e => .error e
  | .body j =>
    match (j.index "sha").asStr with
    | none => .error "Missing commit SHA"
    | some sha => .ok (some (extractCommit parse j sha))

/-- Repeated `check_for_updates` calls against a fixed upstream response,
threading the monitor state; stops early on an error. -/
def checkSeq (parse : String → Option Int) (resp : ApiResponse) :
    Nat → GitHubMonitor → GitHubMonitor × List (Option GitHubCommit)
  | 0, m => (m, [])
  | n + 1, m =>
    match check_for_updates parse m resp with
    | .error _ => (m, [])
    | .ok (m1, r) =>
      let rest := checkSeq parse resp n m1
      (rest.1, r :: rest.2)

/-- Claim C5: on a success response carrying a string `sha`,
`check_for_updates` returns the full commit reference and records the
identifier exactly when no identifier has been observed or the fetched one
differs (first two conjuncts: when the remembered identifier equals the
fetched one it returns "no update" and leaves the state untouched,
otherwise it records and returns the commit); consequently, once the
identifier is remembered, any number of repeated calls against an
unchanged tip all return "no update" (third conjunct). -/
theorem C5_poller_idempotence (parse : String → Option Int) (m : GitHubMonitor)
    (j : Json) (sha : String) (n : Nat)
    (hsha : (j.index "sha").asStr = some sha) :
    (m.last_commit_sha = some sha →
        check_for_updates parse m (.body j) = .ok (m, none)) ∧
    (m.last_commit_sha ≠ some sha →
        check_for_updates parse m (.body j)
          = .ok ({ last_commit_sha := some sha }, some (extractCommit parse j sha))) ∧
    checkSeq parse (.body j) n { last_commit_sha := some sha }
      = ({ last_commit_sha := some sha }, List.replicate n none) := by
  refine ⟨?_, ?_, ?_⟩
  · intro he
    simp [check_for_updates, hsha, he]
  · intro hne
    simp [check_for_updates, hsha, hne]
  · induction n with
    | zero => rfl
    | succ k ih =>
      have hstep : check_for_updates parse { last_commit_sha := some sha } (.body j)
          = .ok ({ last_commit_sha := some sha }, none) := by
        simp [check_for_updates, hsha]
      simp [checkSeq, hstep, ih, List.replicate]

def c5_parse : String → Option Int := fun _ => none

def c5_j : Json := Json.obj [("sha", Json.str "abc")]

/-- Claim C5 witness: the theorem applied to a concrete body whose `sha`
is "abc", a fresh monitor, and three repeated calls. -/
theorem C5_poller_idempotence_witness :
    (c5_j.index "sha").asStr = some "abc" ∧
    ((GitHubMonitor.mk none).last_commit_sha ≠ some "abc" →
      check_for_updates c5_parse ⟨none⟩ (.body c5_j)
        = .ok ({ last_commit_sha := some "abc" },
               some (extractCommit c5_parse c5_j "abc"))) ∧
    checkSeq c5_parse (.body c5_j) 3 { last_commit_sha := some "abc" }
      = ({ last_commit_sha := some "abc" }, List.replicate 3 none) :=
  have h := C5_poller_idempotence c5_parse ⟨none⟩ c5_j "abc" 3 rfl
  ⟨rfl, h.2.1, h.2.2⟩

/-- Claim C10: on a success response with a parsed JSON body, both
`check_for_updates` and `get_latest_commit` fail exactly when the body
lacks a string `sha` field; with a string `sha` present, a missing or
non-string commit message, author name or date does not fail and is
replaced by "No message", "Unknown" and the epoch respectively. -/
theorem C10_error_iff_missing_sha (parse : String → Option Int)
    (m : GitHubMonitor) (j : Json) :
    ((check_for_updates parse m (.body j)).isOk = false ↔
      (j.index "sha").asStr = none) ∧
    ((get_latest_commit parse m (.body j)).isOk = false ↔
      (j.index "sha").asStr = none) ∧
    (∀ sha, (j.index "sha").asStr = some sha →
      get_latest_commit parse m (.body j) = .ok (some (extractCommit parse j sha)) ∧
      (((j.index "commit").index "message").asStr = none →
        (extractCommit parse j sha).message = "No message") ∧
      ((((j.index "commit").index "author").index "name").asStr = none →
        (extractCommit parse j sha).author = "Unknown") ∧
      (parse "1970-01-01T00:00:00Z" = some 0 →
        (((j.index "commit").index "author").index "date").asStr = none →
        (extractCommit parse j sha).date = 0)) := by
  refine ⟨?_, ?_, ?_⟩
  · cases hs : (j.index "sha").asStr with
    | none => simp [check_for_updates, hs, Except.isOk, Except.toBool]
    | some sha =>
      by_cases he : m.last_commit_sha = some sha
      · simp [check_for_updates, hs, he, Except.isOk, Except.toBool]
      · simp [check_for_updates, hs, he, Except.isOk, Except.toBool]
  · cases hs : (j.index "sha").asStr with
    | none => simp [get_latest_commit, hs, Except.isOk, Except.toBool]
    | some sha => simp [get_latest_commit, hs, Except.isOk, Except.toBool]
  · intro sha hs
    refine ⟨by simp [get_latest_commit, hs], ?_, ?_, ?_⟩
    · intro hm
      simp [extractCommit, hm]
    · intro ha
      simp [extractCommit, ha]
    · intro hp hd
      simp [extractCommit, hd, hp]

def c10_parse : String → Option Int :=
  fun s => if s = "1970-01-01T00:00:00Z" then some 0 else none

def c10_j : Json := Json.obj [("sha", Json.str "ffff")]

/-- Claim C10 witness: a body with only a `sha` field yields the three
defaults and no error; a body with no `sha` yields an error. -/
theorem C10_error_iff_missing_sha_witness :
    (extractCommit c10_parse c10_j "ffff").message = "No message" ∧
    (extractCommit c10_parse c10_j "ffff").author = "Unknown" ∧
    (extractCommit c10_parse c10_j "ffff").date = 0 ∧
    get_latest_commit c10_parse ⟨none⟩ (.body c10_j)
      = .ok (some (extractCommit c10_parse c10_j "ffff")) ∧
    (check_for_updates c10_parse ⟨none⟩ (.body (Json.obj []))).isOk = false :=
  have h := (C10_error_iff_missing_sha c10_parse ⟨none⟩ c10_j).2.2 "ffff" rfl
  have h0 := (C10_error_iff_missing_sha c10_parse ⟨none⟩ (Json.obj [])).1
  ⟨h.2.1 rfl, h.2.2.1 rfl, h.2.2.2 rfl rfl, h.1, h0.mpr rfl⟩

end Pumpkin
